import Mathlib

/-!
Verification development for the `logging_timer` crate.

The core (`src/lib.rs`) is shallowly embedded as pure Lean functions.
External state (the global logger and real time) is made explicit:

* `Env` models the global logger; `Env.enabled` is `log::log_enabled!(level)`.
  The development treats enablement as fixed for the lifetime of a run, as the
  spec does (`is_enabled` is a pure query).
* `Sys` threads a logical clock (`Instant::now()` reads it) and an event
  trace.  Every primitive step (constructing, formatting, emitting a record)
  advances the clock by one, so "happens strictly before" is reflected as `<`
  on clock values.  Emitted log records are `Event.emit` entries; every
  evaluation of a user-supplied `format!`/`format_args!` argument at a macro
  call site is recorded as an `Event.fmtAlloc` entry, so that "no formatting
  work is performed" is checkable on the trace.
* Rust panics (`unwrap`, `panic!`) are embedded as `Except.error`.
* `fmt::Arguments` values are embedded as the rendered `String`.
* `Duration` values are clock differences (`Nat`), rendered with `toString`.
-/

/-- Log severity, embedding `log::Level` (used by `src/lib.rs`). -/
inductive Level where
  | error
  | warn
  | info
  | debug
  | trace
deriving DecidableEq

/-- The global logger as seen by the crate: `Env.enabled l` is the result of
`log::log_enabled!(l)`, assumed fixed over a run. -/
structure Env where
  enabled : Level → Bool

/-- Embeds the `log_enabled!` query made by `new`, `with_start_message` and
`log_impl`. -/
def logEnabled (env : Env) (level : Level) : Bool :=
  env.enabled level

/-- Embeds `enum TimerTarget { Starting, Executing, Finished }`. -/
inductive TimerTarget where
  | starting
  | executing
  | finished
deriving DecidableEq

/-- The `target` string attached to a record by `log_record`
("TimerStarting" | "TimerExecuting" | "TimerFinished"). -/
def timerTargetString : TimerTarget → String :=
  fun t =>
    match t with
    | .starting => "TimerStarting"
    | .executing => "TimerExecuting"
    | .finished => "TimerFinished"

/-- One record handed to `log::logger().log(...)` by `log_record`: severity,
target/category string, call-site metadata, emission time and rendered
message. -/
structure LogRecord where
  level : Level
  target : String
  file : String
  modulePath : String
  line : Nat
  time : Nat
  message : String
deriving DecidableEq

/-- An observable event of a run: an emitted log record, or the evaluation of
a user-supplied `format!` / `format_args!` argument at a macro call site
(formatting work / allocation). -/
inductive Event where
  | emit (r : LogRecord)
  | fmtAlloc
deriving DecidableEq

/-- The explicit external state: the logical clock read by `Instant::now()`
and the trace of events observed so far. -/
structure Sys where
  clock : Nat
  trace : List Event
deriving DecidableEq

/-- One unit of time passing (used after each primitive step). -/
def Sys.tick (s : Sys) : Sys :=
  { s with clock := s.clock + 1 }

/-- Appends a format-evaluation event (a `format!`/`format_args!` argument
being evaluated) and lets time pass. -/
def Sys.fmtStep (s : Sys) : Sys :=
  { clock := s.clock + 1, trace := s.trace ++ [Event.fmtAlloc] }

/-- Embeds `struct LoggingTimer` from `src/lib.rs` (the `AtomicBool` is a
`Bool`, the `Instant` a clock value). -/
structure LoggingTimer where
  level : Level
  file : String
  modulePath : String
  line : Nat
  finished : Bool
  startTime : Nat
  name : String
  extraInfo : Option String
deriving DecidableEq

/-- Embeds `LoggingTimer::elapsed`: `self.start_time.elapsed()`, i.e. the
difference between now and the start instant.  Pure: it reads the clock and
touches nothing. -/
def LoggingTimer.elapsed (t : LoggingTimer) (now : Nat) : Nat :=
  now - t.startTime

/-- The message built by the `match (target, self.extra_info.as_ref(), args)`
inside `LoggingTimer::log_impl`, one arm per case of the source `match`. -/
def logImplMessage (name elapsedStr : String) (target : TimerTarget)
    (info args : Option String) : String :=
  match target, info, args with
  | .starting, some i, some a => name ++ ", " ++ i ++ ", " ++ a
  | .starting, some i, none => name ++ ", " ++ i
  | .starting, none, some a => name ++ ", " ++ a
  | .starting, none, none => name
  | _, some i, some a => name ++ ", Elapsed=" ++ elapsedStr ++ ", " ++ i ++ ", " ++ a
  | _, some i, none => name ++ ", Elapsed=" ++ elapsedStr ++ ", " ++ i
  | _, none, some a => name ++ ", Elapsed=" ++ elapsedStr ++ ", " ++ a
  | _, none, none => name ++ ", Elapsed=" ++ elapsedStr

/-- Embeds `LoggingTimer::log_record`: builds the record (severity, target
string, call-site file/module/line, message) and hands it to the logger; the
record is stamped with the current clock and emission takes one tick. -/
def LoggingTimer.log_record (t : LoggingTimer) (target : TimerTarget)
    (msg : String) (s : Sys) : Sys :=
  { clock := s.clock + 1,
    trace := s.trace ++ [Event.emit
      { level := t.level, target := timerTargetString target, file := t.file,
        modulePath := t.modulePath, line := t.line, time := s.clock,
        message := msg }] }

/-- Embeds `LoggingTimer::log_impl`: returns early when the severity is not
enabled, otherwise renders the message per the source `match` (with
`Elapsed={:?}` computed from `self.elapsed()`) and calls `log_record`. -/
def LoggingTimer.log_impl (t : LoggingTimer) (env : Env) (target : TimerTarget)
    (args : Option String) (s : Sys) : Sys :=
  if logEnabled env t.level then
    t.log_record target
      (logImplMessage t.name (toString (t.elapsed s.clock)) target t.extraInfo args) s
  else
    s

/-- Embeds `LoggingTimer::new`: if the level is enabled, captures
`start_time = Instant::now()` (the current clock; construction takes one
tick) and returns the timer with `finished = false`; otherwise returns
`None`.  Emits nothing. -/
def LoggingTimer.new (file modulePath : String) (line : Nat) (name : String)
    (extraInfo : Option String) (level : Level) (env : Env) (s : Sys) :
    Option LoggingTimer × Sys :=
  if logEnabled env level then
    (some { level := level, startTime := s.clock, file := file,
            modulePath := modulePath, line := line, name := name,
            finished := false, extraInfo := extraInfo },
     s.tick)
  else
    (none, s)

/-- Embeds `LoggingTimer::with_start_message`: if the level is enabled, calls
`Self::new(...).unwrap()` (the `unwrap` is the only fallible step, embedded
as `Except`), then `tmr.log_impl(TimerTarget::Starting, None)`, then returns
the timer; otherwise returns `None`. -/
def LoggingTimer.with_start_message (file modulePath : String) (line : Nat)
    (name : String) (extraInfo : Option String) (level : Level) (env : Env)
    (s : Sys) : Except String (Option LoggingTimer × Sys) :=
  if logEnabled env level then
    match LoggingTimer.new file modulePath line name extraInfo level env s with
    | (some tmr, s1) => .ok (some tmr, tmr.log_impl env .starting none s1)
    | (none, _) => .error "called Option.unwrap on a none value"
  else
    .ok (none, s)

/-- Embeds `LoggingTimer::executing`: `self.log_impl(TimerTarget::Executing,
args)`.  Note the source does not consult the `finished` flag here. -/
def LoggingTimer.executing (t : LoggingTimer) (env : Env)
    (args : Option String) (s : Sys) : Sys :=
  t.log_impl env .executing args s

/-- Embeds `LoggingTimer::finish`: if the `finished` flag reads `false`, it is
stored `true` and `log_impl(TimerTarget::Finished, args)` runs; otherwise
nothing happens.  (The load and the store are two separate atomic operations
in the source; this sequential embedding runs them without interleaving — the
concurrent interleaving model is `finishThreadStep` below.) -/
def LoggingTimer.finish (t : LoggingTimer) (env : Env) (args : Option String)
    (s : Sys) : LoggingTimer × Sys :=
  if !t.finished then
    let t2 := { t with finished := true }
    (t2, t2.log_impl env .finished args s)
  else
    (t, s)

/-- Embeds `impl Drop for LoggingTimer`: `self.finish(None)`. -/
def LoggingTimer.drop (t : LoggingTimer) (env : Env) (s : Sys) :
    LoggingTimer × Sys :=
  t.finish env none s

/-- Dropping a value of type `Option<LoggingTimer>` at scope exit: dropping
`Some(t)` runs `t`'s `Drop`, dropping `None` does nothing. -/
def dropTimer (env : Env) (tmr : Option LoggingTimer) (s : Sys) : Sys :=
  match tmr with
  | some t => (t.drop env s).2
  | none => s

/-- Evaluation of an optional user-supplied format argument at a macro call
site: when present, the `format!`/`format_args!` invocation is evaluated
(one `fmtAlloc` event); when absent, nothing happens. -/
def fmtArg (fmt : Option String) (s : Sys) : Sys :=
  match fmt with
  | some _ => s.fmtStep
  | none => s

/-- Embeds the expansion of `timer!($name, $format, ...)` (and its
level-taking forms): the `Some(format!($format, ...))` argument is evaluated
eagerly, before `LoggingTimer::new` performs its `log_enabled!` check. -/
def timerExpand (env : Env) (file modulePath : String) (line : Nat)
    (name : String) (fmt : Option String) (level : Level) (s : Sys) :
    Option LoggingTimer × Sys :=
  LoggingTimer.new file modulePath line name fmt level env (fmtArg fmt s)

/-- Embeds the expansion of `stimer!(...)`: the `Some(format!(...))` argument
is evaluated eagerly, then `LoggingTimer::with_start_message` runs. -/
def stimerExpand (env : Env) (file modulePath : String) (line : Nat)
    (name : String) (fmt : Option String) (level : Level) (s : Sys) :
    Except String (Option LoggingTimer × Sys) :=
  LoggingTimer.with_start_message file modulePath line name fmt level env (fmtArg fmt s)

/-- Embeds the expansion of `executing!($timer, ...)`: only when the timer
option is `Some` is the `format_args!` argument evaluated and
`tmr.executing(...)` called. -/
def executingExpand (env : Env) (tmr : Option LoggingTimer)
    (fmt : Option String) (s : Sys) : Sys :=
  match tmr with
  | some t => t.executing env fmt (fmtArg fmt s)
  | none => s

/-- Embeds the expansion of `finish!($timer, ...)`: only when the timer
option is `Some` is the `format_args!` argument evaluated and
`tmr.finish(...)` called. -/
def finishExpand (env : Env) (tmr : Option LoggingTimer)
    (fmt : Option String) (s : Sys) : Option LoggingTimer × Sys :=
  match tmr with
  | some t =>
    let s1 := fmtArg fmt s
    let p := t.finish env fmt s1
    (some p.1, p.2)
  | none => (none, s)

/-- One client operation on a live timer scope: an `executing!` call or a
`finish!` call, each with an optional format argument. -/
inductive TimerOp where
  | executing (fmt : Option String)
  | finish (fmt : Option String)

/-- Runs a sequence of `executing!` / `finish!` calls against the (optional)
timer. -/
def runOps (env : Env) : List TimerOp → Option LoggingTimer → Sys →
    Option LoggingTimer × Sys
  | [], tmr, s => (tmr, s)
  | .executing fmt :: rest, tmr, s =>
    runOps env rest tmr (executingExpand env tmr fmt s)
  | .finish fmt :: rest, tmr, s =>
    let p := finishExpand env tmr fmt s
    runOps env rest p.1 p.2

/-- A whole `timer!` scope: construct via the `timer!` expansion, run the
client's `executing!`/`finish!` calls, then drop the timer at scope exit.
Starts from an empty trace at clock `c`. -/
def runScope (env : Env) (file modulePath : String) (line : Nat)
    (name : String) (fmt : Option String) (level : Level)
    (ops : List TimerOp) (c : Nat) : Sys :=
  let p := timerExpand env file modulePath line name fmt level ⟨c, []⟩
  let q := runOps env ops p.1 p.2
  dropTimer env q.1 q.2

/-- Is this event a record with the given target string? -/
def isRecTarget (target : String) (e : Event) : Bool :=
  match e with
  | .emit r => r.target == target
  | .fmtAlloc => false

/-- Is this event a "TimerFinished" record? -/
def isFinRec (e : Event) : Bool :=
  isRecTarget "TimerFinished" e

/-- Is this event a "TimerExecuting" record? -/
def isExecRec (e : Event) : Bool :=
  isRecTarget "TimerExecuting" e

/-- Is this event any log record at all? -/
def isRec (e : Event) : Bool :=
  match e with
  | .emit _ => true
  | .fmtAlloc => false

/-- Number of "TimerFinished" records in a trace. -/
def countFinished (tr : List Event) : Nat :=
  (tr.filter isFinRec).length

/-- Number of finish records the timer still owes: one while `finished` is
`false`, zero afterwards. -/
def finPending (t : LoggingTimer) : Nat :=
  if t.finished then 0 else 1

/-- Does an embedded fallible computation succeed (i.e. no panic)? -/
def isOkB {α : Type} (e : Except String α) : Bool :=
  match e with
  | .ok _ => true
  | .error _ => false

/-- Does an "TimerExecuting" record occur strictly after some "TimerFinished"
record in the trace? -/
def execAfterFin : List Event → Bool
  | [] => false
  | e :: rest => (isFinRec e && rest.any isExecRec) || execAfterFin rest

/-- Syntactic well-ordering of a call sequence: given whether the timer is
already finished, no `executing!` call occurs at or after the point the timer
is finished. -/
def opsOk : Bool → List TimerOp → Bool
  | _, [] => true
  | fin, .executing _ :: rest => !fin && opsOk fin rest
  | _, .finish _ :: rest => opsOk true rest

/-- An environment in which every severity is enabled. -/
def envAllOn : Env :=
  ⟨fun _ => true⟩

/-- An environment in which every severity is disabled. -/
def envAllOff : Env :=
  ⟨fun _ => false⟩

/-- The trace left behind by the eager construction-site format argument
alone. -/
def fmtOnlyTrace (fmt : Option String) : List Event :=
  match fmt with
  | some _ => [Event.fmtAlloc]
  | none => []

/-- Modelled from the spec (field-order contract of §4.1): the rendered
non-Starting message is the ordered field list `name`, `Elapsed=<duration>`,
then `extra_info` if present, then `extra_args` if present. -/
def specOrderedFields (name elapsedStr : String) (info args : Option String) :
    List String :=
  [name, "Elapsed=" ++ elapsedStr]
    ++ (match info with | some i => [i] | none => [])
    ++ (match args with | some a => [a] | none => [])

/-- Joins message fields with the `", "` separator used by the source format
strings. -/
def joinFields : List String → String
  | [] => ""
  | [f] => f
  | f :: rest => f ++ ", " ++ joinFields rest

/-!
Concurrency model for `LoggingTimer::finish` (claim about the `finished`
flag's check-then-set).  In the source the check and the set are two separate
atomic operations:

```
if !self.finished.load(Ordering::SeqCst) {
    self.finished.store(true, Ordering::SeqCst);
    self.log_impl(TimerTarget::Finished, args);
}
```

Each of two threads running `finish` is a small program with a program
counter: pc 0 = about to perform the atomic load; pc 1 = observed `false`,
about to perform the atomic store followed by the log; pc 2 = done.  A
schedule interleaves the threads' atomic steps.
-/

/-- Per-thread state of the two-thread `finish` race model. -/
structure ConcState where
  finished : Bool
  pc0 : Nat
  pc1 : Nat
  finCount : Nat
deriving DecidableEq

/-- One atomic step of a thread running `finish`: at pc 0 the thread loads
`finished` (if `true` it returns without logging, otherwise it proceeds); at
pc 1 it stores `true` and emits the Finished record.  Returns the new pc, the
new flag value and the new emitted-record count. -/
def finishThreadStep (pc : Nat) (fin : Bool) (cnt : Nat) : Nat × Bool × Nat :=
  match pc with
  | 0 => if fin then (2, fin, cnt) else (1, fin, cnt)
  | 1 => (2, true, cnt + 1)
  | _ => (pc, fin, cnt)

/-- Runs one scheduled atomic step of the chosen thread
(`false` = thread 0, `true` = thread 1). -/
def concStep (st : ConcState) (tid : Bool) : ConcState :=
  if tid then
    let r := finishThreadStep st.pc1 st.finished st.finCount
    { st with pc1 := r.1, finished := r.2.1, finCount := r.2.2 }
  else
    let r := finishThreadStep st.pc0 st.finished st.finCount
    { st with pc0 := r.1, finished := r.2.1, finCount := r.2.2 }

/-- Runs a whole schedule of interleaved atomic steps. -/
def runSched (sched : List Bool) (st : ConcState) : ConcState :=
  sched.foldl concStep st

/-- Both threads about to call `finish` on an unfinished timer. -/
def concInit : ConcState :=
  ⟨false, 0, 0, 0⟩

/-!
Embedding of the procedural-macro crate
(`src/logging_timer_proc_macros/src/lib.rs`).  Token trees are literals (the
string rendering of `Literal::to_string`, quotes included when the source
token had them) or other (punctuation etc., which the source filters out);
`panic!` at code-generation time is `Except.error`.
-/

/-- Embeds `proc_macro::TokenTree` as far as the macro crate inspects it. -/
inductive TokenTree where
  | literal (s : String)
  | punct (s : String)
deriving DecidableEq

/-- The filter used to collect `macro_args`: keep only
`TokenTree::Literal(_)`. -/
def isLiteralTok : TokenTree → Bool
  | .literal _ => true
  | .punct _ => false

/-- Models Rust `str::trim`: drops leading and trailing whitespace. -/
def trimChars (s : String) : String :=
  String.mk (((s.data.dropWhile Char.isWhitespace).reverse.dropWhile
    Char.isWhitespace).reverse)

/-- Models Rust `str::trim_matches(c)`: drops leading and trailing
occurrences of the character `c`. -/
def trimMatchesChar (c : Char) (s : String) : String :=
  String.mk (((s.data.dropWhile (fun x => x == c)).reverse.dropWhile
    (fun x => x == c)).reverse)

/-- The literal-to-text step of `extract_literal`:
`s.trim().trim_matches('"').trim()`. -/
def literalText (s : String) : String :=
  trimChars (trimMatchesChar '\"' (trimChars s))

/-- Embeds `extract_literal`: a `Literal` yields its trimmed text, anything
else panics. -/
def extract_literal (tt : TokenTree) : Except String String :=
  match tt with
  | .literal s => .ok (literalText s)
  | _ => .error "Invalid argument. Specify at most two string literal arguments, for log level and name pattern, in that order."

/-- Embeds `DEFAULT_LEVEL`. -/
def DEFAULT_LEVEL : String :=
  "debug"

/-- Embeds `DEFAULT_NAME_PATTERN` (the two-character brace-pair pattern). -/
def DEFAULT_NAME_PATTERN : String :=
  "\x7b\x7d"

/-- Models Rust `str::contains("\x7b\x7d")`: does the character list contain
an adjacent open-brace/close-brace pair? -/
def containsBracePair : List Char → Bool
  | [] => false
  | [_] => false
  | a :: b :: rest =>
    (a == '\x7b' && b == '\x7d') || containsBracePair (b :: rest)

/-- Models Rust `str::to_ascii_lowercase`: lowercases the ASCII letters of
the string. -/
def toAsciiLower (s : String) : String :=
  String.mk (s.data.map Char.toLower)

/-- The set of level names accepted by the macro crate's `match` arms
(`"error" | "warn" | "info" | "debug" | "trace" | "never"`). -/
def isLevelName (s : String) : Bool :=
  s == "error" || s == "warn" || s == "info" || s == "debug" ||
    s == "trace" || s == "never"

/-- Embeds `get_log_level_and_name_pattern`: filters the metadata tokens to
literals, applies the source's checks in order (empty → defaults; more than
two → panic; pattern-looking first argument with two arguments → panic;
one argument → level or pattern; two arguments → strict level then pattern,
empty second argument replaced by the default pattern; otherwise panic). -/
def get_log_level_and_name_pattern (metadata : List TokenTree) :
    Except String (String × String) :=
  let macro_args := metadata.filter isLiteralTok
  if macro_args.isEmpty then
    .ok (DEFAULT_LEVEL, DEFAULT_NAME_PATTERN)
  else if macro_args.length > 2 then
    .error "Specify at most two string literal arguments, for log level and name pattern"
  else
    match extract_literal (macro_args.headD (TokenTree.punct "")) with
    | .error e => .error e
    | .ok first_arg =>
      if containsBracePair first_arg.data && macro_args.length == 2 then
        .error "Invalid first argument. Specify the log level as the first argument and the pattern as the second."
      else
        let first_arg_lower := toAsciiLower first_arg
        if macro_args.length == 1 then
          if isLevelName first_arg_lower then
            .ok (first_arg_lower, DEFAULT_NAME_PATTERN)
          else
            .ok (DEFAULT_LEVEL, first_arg)
        else
          if isLevelName first_arg_lower then
            match extract_literal (macro_args.getD 1 (TokenTree.punct "")) with
            | .error e => .error e
            | .ok second_arg =>
              let second_arg2 :=
                if second_arg.isEmpty then second_arg ++ DEFAULT_NAME_PATTERN
                else second_arg
              .ok (first_arg_lower, second_arg2)
          else
            .error "Invalid first argument. Specify the log level as the first argument and the pattern as the second."

/-- Replaces the first adjacent brace pair in the character list with the
replacement (the `replacen(.., .., 1)` call of `get_timer_name`). -/
def replaceFirstBracePair (repl : String) : List Char → List Char
  | [] => []
  | [c] => [c]
  | a :: b :: rest =>
    if a == '\x7b' && b == '\x7d' then repl.data ++ rest
    else a :: replaceFirstBracePair repl (b :: rest)

/-- Embeds `get_timer_name`: substitutes `fn_name()` for the first brace pair
of the name pattern. -/
def get_timer_name (name_pattern fn_name : String) : String :=
  let fn_name_with_parens := fn_name ++ "()"
  String.mk (replaceFirstBracePair fn_name_with_parens name_pattern.data)

/-- The `match level.as_str()` that quotes a `::log::Level` in `time` /
`stime`; an unrecognized name panics. -/
def levelFromName (s : String) : Except String Level :=
  match s with
  | "error" => .ok Level.error
  | "warn" => .ok Level.warn
  | "info" => .ok Level.info
  | "debug" => .ok Level.debug
  | "trace" => .ok Level.trace
  | _ => .error ("Unrecognized log level: " ++ s)

/-- The token stream produced by the `time` / `stime` attribute: either the
input function passed through unchanged (the `level == "never"` branch
returns the input token stream as-is), or the function wrapped with a
`timer!` / `stimer!` statement.  The input function's body is embedded by the
function it denotes. -/
inductive TimeOutput (α β : Type) where
  | passthrough (f : α → β)
  | timerWrapped (level : Level) (timerName : String) (f : α → β)
  | stimerWrapped (level : Level) (timerName : String) (f : α → β)

/-- Embeds the `time` attribute macro: parse the metadata; if the level is
not "never", emit the function wrapped in `let _tmr = timer!(level; name);`,
otherwise return the input unchanged. -/
def time (metadata : List TokenTree) (fnName : String) {α β : Type}
    (f : α → β) : Except String (TimeOutput α β) :=
  match get_log_level_and_name_pattern metadata with
  | .error e => .error e
  | .ok (level, name_pattern) =>
    if level != "never" then
      let timer_name := get_timer_name name_pattern fnName
      match levelFromName level with
      | .error e => .error e
      | .ok log_level => .ok (.timerWrapped log_level timer_name f)
    else
      .ok (.passthrough f)

/-- Embeds the `stime` attribute macro (identical to `time` except the
generated wrapper uses `stimer!`). -/
def stime (metadata : List TokenTree) (fnName : String) {α β : Type}
    (f : α → β) : Except String (TimeOutput α β) :=
  match get_log_level_and_name_pattern metadata with
  | .error e => .error e
  | .ok (level, name_pattern) =>
    if level != "never" then
      let timer_name := get_timer_name name_pattern fnName
      match levelFromName level with
      | .error e => .error e
      | .ok log_level => .ok (.stimerWrapped log_level timer_name f)
    else
      .ok (.passthrough f)

/-- Calling the function emitted by the attribute: a passthrough runs the
original body with no events; a wrapped function opens the timer, runs the
body and drops the timer at scope exit. -/
def TimeOutput.call {α β : Type} (o : TimeOutput α β) (env : Env)
    (file modulePath : String) (line : Nat) (a : α) (c : Nat) :
    Except String (β × Sys) :=
  match o with
  | .passthrough f => .ok (f a, ⟨c, []⟩)
  | .timerWrapped lv nm f =>
    let p := timerExpand env file modulePath line nm none lv ⟨c, []⟩
    .ok (f a, dropTimer env p.1 p.2)
  | .stimerWrapped lv nm f =>
    match stimerExpand env file modulePath line nm none lv ⟨c, []⟩ with
    | .error e => .error e
    | .ok p => .ok (f a, dropTimer env p.1 p.2)

/-!
Helper lemmas shared by the claim theorems.
-/

theorem beq_exec_fin : (("TimerExecuting" == "TimerFinished") : Bool) = false := by
  decide

theorem beq_start_fin : (("TimerStarting" == "TimerFinished") : Bool) = false := by
  decide

theorem beq_fin_fin : (("TimerFinished" == "TimerFinished") : Bool) = true := by
  decide

theorem countFinished_append (a b : List Event) :
    countFinished (a ++ b) = countFinished a + countFinished b := by
  simp [countFinished, List.filter_append]

theorem countFinished_cons (e : Event) (tr : List Event) :
    countFinished (e :: tr) = (if isFinRec e then 1 else 0) + countFinished tr := by
  cases h : isFinRec e
  · simp [countFinished, List.filter_cons, h]
  · simp [countFinished, List.filter_cons, h]
    omega

theorem countFinished_nil : countFinished [] = 0 := by
  simp [countFinished]

theorem tick_trace (s : Sys) : (Sys.tick s).trace = s.trace := rfl

theorem countFinished_fmtArg (fmt : Option String) (s : Sys) :
    countFinished (fmtArg fmt s).trace = countFinished s.trace := by
  cases fmt <;>
    simp [fmtArg, Sys.fmtStep, countFinished_append, countFinished_cons,
      countFinished_nil, isFinRec, isRecTarget]

theorem finish_fst_finished (t : LoggingTimer) (env : Env) (fmt : Option String)
    (s : Sys) : ((t.finish env fmt s).1).finished = true := by
  cases h : t.finished <;> simp [LoggingTimer.finish, h]

theorem finish_fst_level (t : LoggingTimer) (env : Env) (fmt : Option String)
    (s : Sys) : ((t.finish env fmt s).1).level = t.level := by
  cases h : t.finished <;> simp [LoggingTimer.finish, h]

theorem countFinished_executingExpand (env : Env) (t : LoggingTimer)
    (fmt : Option String) (s : Sys) :
    countFinished (executingExpand env (some t) fmt s).trace
      = countFinished s.trace := by
  unfold executingExpand LoggingTimer.executing LoggingTimer.log_impl
  cases hl : logEnabled env t.level
  · simp [hl, countFinished_fmtArg]
  · simp [hl, LoggingTimer.log_record, countFinished_append, countFinished_cons,
      countFinished_nil, countFinished_fmtArg, isFinRec, isRecTarget,
      timerTargetString, beq_exec_fin]

theorem finish_count_invariant (t : LoggingTimer) (env : Env)
    (fmt : Option String) (s : Sys) (h : logEnabled env t.level = true) :
    countFinished (t.finish env fmt s).2.trace + finPending (t.finish env fmt s).1
      = countFinished s.trace + finPending t := by
  cases hf : t.finished
  · simp [LoggingTimer.finish, hf, finPending, LoggingTimer.log_impl, h,
      LoggingTimer.log_record, countFinished_append, countFinished_cons,
      countFinished_nil, isFinRec, isRecTarget, timerTargetString, beq_fin_fin]
  · simp [LoggingTimer.finish, hf, finPending]

theorem runOps_count (env : Env) (ops : List TimerOp) :
    ∀ (t : LoggingTimer) (s : Sys), logEnabled env t.level = true →
    ∃ t2 s2, runOps env ops (some t) s = (some t2, s2)
      ∧ logEnabled env t2.level = true
      ∧ countFinished s2.trace + finPending t2
          = countFinished s.trace + finPending t := by
  induction ops with
  | nil => exact fun t s h => ⟨t, s, rfl, h, rfl⟩
  | cons op rest ih =>
    intro t s h
    cases op with
    | executing fmt =>
      obtain ⟨t2, s2, heq, h2, hc⟩ := ih t (executingExpand env (some t) fmt s) h
      refine ⟨t2, s2, ?_, h2, ?_⟩
      · simpa only [runOps] using heq
      · rw [hc, countFinished_executingExpand]
    | finish fmt =>
      have hlv : logEnabled env ((t.finish env fmt (fmtArg fmt s)).1).level = true := by
        rw [finish_fst_level]; exact h
      obtain ⟨t2, s2, heq, h2, hc⟩ :=
        ih (t.finish env fmt (fmtArg fmt s)).1 (t.finish env fmt (fmtArg fmt s)).2 hlv
      refine ⟨t2, s2, ?_, h2, ?_⟩
      · simpa only [runOps, finishExpand] using heq
      · rw [hc, finish_count_invariant t env fmt (fmtArg fmt s) h, countFinished_fmtArg]

theorem runOps_none (env : Env) (ops : List TimerOp) :
    ∀ (s : Sys), runOps env ops none s = (none, s) := by
  induction ops with
  | nil => intro s; rfl
  | cons op rest ih =>
    intro s
    cases op with
    | executing fmt => simpa only [runOps, executingExpand] using ih s
    | finish fmt => simpa only [runOps, finishExpand] using ih s

theorem new_enabled (file modulePath : String) (line : Nat) (name : String)
    (extraInfo : Option String) (level : Level) (env : Env) (s : Sys)
    (h : logEnabled env level = true) :
    LoggingTimer.new file modulePath line name extraInfo level env s
      = (some ⟨level, file, modulePath, line, false, s.clock, name, extraInfo⟩,
         s.tick) := by
  simp [LoggingTimer.new, h]

theorem new_disabled (file modulePath : String) (line : Nat) (name : String)
    (extraInfo : Option String) (level : Level) (env : Env) (s : Sys)
    (h : logEnabled env level = false) :
    LoggingTimer.new file modulePath line name extraInfo level env s = (none, s) := by
  simp [LoggingTimer.new, h]

theorem runScope_eq (env : Env) (file modulePath : String) (line : Nat)
    (name : String) (fmt : Option String) (level : Level) (ops : List TimerOp)
    (c : Nat) (h : logEnabled env level = true) :
    runScope env file modulePath line name fmt level ops c
      = dropTimer env
          (runOps env ops
            (some ⟨level, file, modulePath, line, false,
              (fmtArg fmt (⟨c, []⟩ : Sys)).clock, name, fmt⟩)
            (Sys.tick (fmtArg fmt (⟨c, []⟩ : Sys)))).1
          (runOps env ops
            (some ⟨level, file, modulePath, line, false,
              (fmtArg fmt (⟨c, []⟩ : Sys)).clock, name, fmt⟩)
            (Sys.tick (fmtArg fmt (⟨c, []⟩ : Sys)))).2 := by
  simp [runScope, timerExpand, LoggingTimer.new, h, Sys.tick]

/-- C1: whenever the configured severity is enabled at construction (so that
the `timer!` expansion yields a live timer), any sequence of `executing!` and
`finish!` calls — zero, one or two (or more) finish requests — followed by the
scope-exit drop leaves exactly one "TimerFinished" record in the trace, never
zero and never more than one: an explicit finish emits the record and sets
the `finished` flag, the drop invokes `finish(None)`, and any finish request
after the flag is set is a no-op. -/
theorem c1_exactly_once_finished (env : Env) (file modulePath name : String)
    (line c : Nat) (fmt : Option String) (level : Level) (ops : List TimerOp)
    (h : env.enabled level = true) :
    countFinished (runScope env file modulePath line name fmt level ops c).trace
      = 1 := by
  have h0 : logEnabled env level = true := h
  obtain ⟨t2, s2, heq, h2, hc⟩ := runOps_count env ops
    ⟨level, file, modulePath, line, false, (fmtArg fmt (⟨c, []⟩ : Sys)).clock,
      name, fmt⟩
    (Sys.tick (fmtArg fmt (⟨c, []⟩ : Sys))) h0
  have h3 : countFinished s2.trace + finPending t2 = 1 := by
    rw [hc, tick_trace, countFinished_fmtArg]
    simp [finPending, countFinished_nil]
  have hdrop := finish_count_invariant t2 env none s2 h2
  have hp : finPending (t2.finish env none s2).1 = 0 := by
    simp [finPending, finish_fst_finished]
  rw [runScope_eq env file modulePath line name fmt level ops c h0, heq]
  show countFinished (t2.finish env none s2).2.trace = 1
  omega

/-- Witness for C1 at a concrete input: all severities enabled, two explicit
finish calls before scope exit, exactly one Finished record results. -/
theorem c1_exactly_once_finished_witness :
    envAllOn.enabled Level.debug = true
    ∧ countFinished (runScope envAllOn "f.rs" "m" 7 "T" none Level.debug
        [TimerOp.finish none, TimerOp.finish none] 0).trace = 1 :=
  ⟨rfl, c1_exactly_once_finished envAllOn "f.rs" "m" "T" 7 0 none Level.debug
    [TimerOp.finish none, TimerOp.finish none] rfl⟩

/-- C4 (code bug): the claim says the check-then-set of the `finished` flag is
a single atomic read-modify-write so that two concurrent `finish` calls emit
exactly one Finished record.  In the source the check (`load`) and the set
(`store`) are two separate atomic operations; under the interleaving
load₀, load₁, store₀+log₀, store₁+log₁ both threads observe `false` and both
log: the run completes both threads (pc 2) with `finCount = 2`, not 1. -/
theorem c4_finish_race_two_records :
    (runSched [false, true, false, true] concInit).finCount = 2
    ∧ (runSched [false, true, false, true] concInit).pc0 = 2
    ∧ (runSched [false, true, false, true] concInit).pc1 = 2 := by
  decide

/-- C5: when the severity is enabled, the announced constructor
(`with_start_message`, the `stimer!`/`open_announced_timer` path) returns
successfully with exactly one record appended to the trace, that record's
target is "TimerStarting", it is emitted synchronously before returning, and
the returned timer's `start_time` (the clock value `c`) was captured strictly
before the record's emission time (`c + 1`); the silent constructor (`new`,
the `timer!`/`open_timer` path) appends zero records. -/
theorem c5_start_message (env : Env) (file modulePath name : String)
    (line c : Nat) (extraInfo : Option String) (level : Level)
    (tr : List Event) (h : env.enabled level = true) :
    ((LoggingTimer.new file modulePath line name extraInfo level env ⟨c, tr⟩).2).trace = tr
    ∧ LoggingTimer.with_start_message file modulePath line name extraInfo level env ⟨c, tr⟩
        = .ok (some ⟨level, file, modulePath, line, false, c, name, extraInfo⟩,
            ⟨c + 2, tr ++ [Event.emit ⟨level, "TimerStarting", file, modulePath,
              line, c + 1,
              logImplMessage name (toString (1 : Nat)) .starting extraInfo none⟩]⟩)
    ∧ (⟨level, file, modulePath, line, false, c, name, extraInfo⟩ : LoggingTimer).startTime
        < c + 1 := by
  have h0 : logEnabled env level = true := h
  refine ⟨?_, ?_, Nat.lt_succ_self c⟩
  · simp [LoggingTimer.new, h0, Sys.tick]
  · simp [LoggingTimer.with_start_message, LoggingTimer.new, h0,
      LoggingTimer.log_impl, LoggingTimer.log_record, Sys.tick,
      LoggingTimer.elapsed, timerTargetString]

/-- Witness for C5 at a concrete input. -/
theorem c5_start_message_witness :
    envAllOn.enabled Level.info = true
    ∧ ((LoggingTimer.new "f.rs" "m" 7 "T" none Level.info envAllOn ⟨4, []⟩).2).trace = []
    ∧ LoggingTimer.with_start_message "f.rs" "m" 7 "T" none Level.info envAllOn ⟨4, []⟩
        = .ok (some ⟨Level.info, "f.rs", "m", 7, false, 4, "T", none⟩,
            ⟨6, [Event.emit ⟨Level.info, "TimerStarting", "f.rs", "m", 7, 5,
              logImplMessage "T" (toString (1 : Nat)) .starting none none⟩]⟩)
    ∧ (⟨Level.info, "f.rs", "m", 7, false, 4, "T", none⟩ : LoggingTimer).startTime < 5 := by
  have w := c5_start_message envAllOn "f.rs" "m" "T" 7 4 none Level.info [] rfl
  exact ⟨rfl, w.1, w.2.1, w.2.2⟩

theorem string_comma_elapsed (x : String) :
    (", Elapsed=" : String) ++ x = ", " ++ ("Elapsed=" ++ x) := by
  rw [← String.append_assoc]
  congr 1

/-- C6: for every combination of optional `extra_info` and optional
`extra_args`, the Executing and the Finished message render the fields in
the fixed order name, `Elapsed=` duration, extra_info if present, extra_args
if present — each optional segment independently omittable (all four
combinations), matching the spec-side ordered field list. -/
theorem c6_field_order (name elapsedStr : String) (info args : Option String) :
    logImplMessage name elapsedStr .executing info args
        = joinFields (specOrderedFields name elapsedStr info args)
    ∧ logImplMessage name elapsedStr .finished info args
        = joinFields (specOrderedFields name elapsedStr info args) := by
  cases info <;> cases args <;>
    simp [logImplMessage, specOrderedFields, joinFields, String.append_assoc,
      string_comma_elapsed]

/-- C7: the announced constructor never fails: the `unwrap` inside
`with_start_message` is only reached when the severity was just observed
enabled, in which case the inner `new` returns `Some`; the disabled branch
returns `None` without any fallible step.  (`new`, `executing` and `finish`
are total functions of the embedding and have no failure path at all.) -/
theorem c7_no_failure (env : Env) (file modulePath : String) (line : Nat)
    (name : String) (extraInfo : Option String) (level : Level) (s : Sys) :
    isOkB (LoggingTimer.with_start_message file modulePath line name extraInfo
      level env s) = true := by
  cases hl : logEnabled env level
  · simp [LoggingTimer.with_start_message, hl, isOkB]
  · simp [LoggingTimer.with_start_message, LoggingTimer.new, hl, isOkB]

/-- C10: `elapsed()` equals now minus `start_time`, is a pure function of the
timer and the sample instant, and is monotone: a sample at `t1 < t2` yields
a duration no larger than the sample at `t2`. -/
theorem c10_elapsed_monotone (t : LoggingTimer) (t1 t2 : Nat) (h : t1 < t2) :
    t.elapsed t1 = t1 - t.startTime ∧ t.elapsed t1 ≤ t.elapsed t2 :=
  ⟨rfl, Nat.sub_le_sub_right (Nat.le_of_lt h) t.startTime⟩

/-- Witness for C10 at a concrete input. -/
theorem c10_elapsed_monotone_witness :
    (3 : Nat) < 5
    ∧ ((⟨Level.debug, "f.rs", "m", 7, false, 2, "T", none⟩ : LoggingTimer).elapsed 3
        = 3 - 2
      ∧ (⟨Level.debug, "f.rs", "m", 7, false, 2, "T", none⟩ : LoggingTimer).elapsed 3
        ≤ (⟨Level.debug, "f.rs", "m", 7, false, 2, "T", none⟩ : LoggingTimer).elapsed 5) :=
  ⟨by decide,
   c10_elapsed_monotone ⟨Level.debug, "f.rs", "m", 7, false, 2, "T", none⟩ 3 5
     (by decide)⟩

/-- C2 counterexample: the claim says a disabled severity makes construction
a complete no-op with no format-string evaluation; but the `timer!` expansion
evaluates `Some(format!(...))` eagerly as an argument, before `new` performs
its `log_enabled!` check, so with every severity disabled the run still
contains a format-evaluation event. -/
theorem c2_disabled_formatting_counterexample :
    logEnabled envAllOff Level.debug = false
    ∧ (runScope envAllOff "f.rs" "m" 7 "T" (some "I") Level.debug [] 0).trace
        = [Event.fmtAlloc] :=
  ⟨rfl, rfl⟩

/-- C2 (amended): if the configured severity is disabled at construction
time, no record of any phase is ever emitted and no per-call `extra_args`
formatting occurs (the timer option is `None`, so `executing!`/`finish!`
never evaluate their `format_args!`), and the announced constructor also
emits nothing; however, the construction-site `extra_info` `format!` argument
of the `timer!`/`stimer!` expansion is still evaluated eagerly even when
disabled, so the whole run's trace is exactly that one format event (or
empty when no `extra_info` is given). -/
theorem c2_disabled_noop_amended (env : Env) (file modulePath name : String)
    (line c : Nat) (fmt : Option String) (level : Level) (ops : List TimerOp)
    (h : env.enabled level = false) :
    (runScope env file modulePath line name fmt level ops c).trace
        = fmtOnlyTrace fmt
    ∧ stimerExpand env file modulePath line name fmt level ⟨c, []⟩
        = .ok (none, fmtArg fmt ⟨c, []⟩)
    ∧ (fmtArg fmt (⟨c, []⟩ : Sys)).trace = fmtOnlyTrace fmt := by
  have h0 : logEnabled env level = false := h
  refine ⟨?_, ?_, ?_⟩
  · simp only [runScope, timerExpand]
    rw [new_disabled file modulePath line name fmt level env (fmtArg fmt ⟨c, []⟩) h0]
    simp only [runOps_none env ops, dropTimer]
    cases fmt <;> rfl
  · simp [stimerExpand, LoggingTimer.with_start_message, h0]
  · cases fmt <;> rfl

/-- Witness for the amended C2 at a concrete input: everything disabled, an
`extra_info` format argument present, progress and finish calls with format
arguments; the only event of the whole run is the eager construction-site
format evaluation. -/
theorem c2_disabled_noop_amended_witness :
    envAllOff.enabled Level.debug = false
    ∧ (runScope envAllOff "f.rs" "m" 7 "T" (some "I") Level.debug
        [TimerOp.executing (some "E"), TimerOp.finish (some "F")] 0).trace
        = fmtOnlyTrace (some "I")
    ∧ stimerExpand envAllOff "f.rs" "m" 7 "T" (some "I") Level.debug ⟨0, []⟩
        = .ok (none, fmtArg (some "I") ⟨0, []⟩)
    ∧ (fmtArg (some "I") (⟨0, []⟩ : Sys)).trace = fmtOnlyTrace (some "I") := by
  have w := c2_disabled_noop_amended envAllOff "f.rs" "m" "T" 7 0 (some "I")
    Level.debug [TimerOp.executing (some "E"), TimerOp.finish (some "F")] rfl
  exact ⟨rfl, w.1, w.2.1, w.2.2⟩

theorem beq_exec_exec : (("TimerExecuting" == "TimerExecuting") : Bool) = true := by
  decide

theorem beq_fin_exec : (("TimerFinished" == "TimerExecuting") : Bool) = false := by
  decide

theorem execAfterFin_append_one (tr : List Event) (e : Event) :
    execAfterFin (tr ++ [e])
      = (execAfterFin tr || (isExecRec e && tr.any isFinRec)) := by
  induction tr with
  | nil => simp [execAfterFin]
  | cons a tr ih =>
    simp only [List.cons_append, execAfterFin, List.append_eq, ih,
      List.any_append, List.any_cons, List.any_nil, Bool.or_false]
    generalize isFinRec a = A
    generalize isExecRec e = P
    generalize tr.any isExecRec = X
    generalize tr.any isFinRec = Y
    generalize execAfterFin tr = B
    revert A P X Y B
    decide

theorem ea_fmtArg (fmt : Option String) (s : Sys) :
    execAfterFin (fmtArg fmt s).trace = execAfterFin s.trace := by
  cases fmt
  · rfl
  · simp [fmtArg, Sys.fmtStep, execAfterFin_append_one, isExecRec, isRecTarget]

theorem anyFin_fmtArg (fmt : Option String) (s : Sys) :
    (fmtArg fmt s).trace.any isFinRec = s.trace.any isFinRec := by
  cases fmt
  · rfl
  · simp [fmtArg, Sys.fmtStep, isFinRec, isRecTarget]

theorem ea_executingExpand (env : Env) (t : LoggingTimer) (fmt : Option String)
    (s : Sys) (hea : execAfterFin s.trace = false)
    (hfin : s.trace.any isFinRec = false) :
    execAfterFin (executingExpand env (some t) fmt s).trace = false
    ∧ (executingExpand env (some t) fmt s).trace.any isFinRec = false := by
  unfold executingExpand LoggingTimer.executing LoggingTimer.log_impl
  cases hl : logEnabled env t.level
  · simp [hl, ea_fmtArg, anyFin_fmtArg, hea, hfin]
  · simp [hl, LoggingTimer.log_record, execAfterFin_append_one, ea_fmtArg,
      anyFin_fmtArg, hea, hfin, isExecRec, isFinRec, isRecTarget,
      timerTargetString, beq_exec_fin]

theorem ea_log_impl_finished (t : LoggingTimer) (env : Env)
    (fmt : Option String) (s : Sys) (hea : execAfterFin s.trace = false) :
    execAfterFin (t.log_impl env .finished fmt s).trace = false := by
  unfold LoggingTimer.log_impl
  cases hl : logEnabled env t.level
  · simpa [hl] using hea
  · simp [hl, LoggingTimer.log_record, execAfterFin_append_one, hea,
      isExecRec, isRecTarget, timerTargetString, beq_fin_exec]

theorem runOps_ea (env : Env) (ops : List TimerOp) :
    ∀ (t : LoggingTimer) (s : Sys), logEnabled env t.level = true →
    execAfterFin s.trace = false →
    (t.finished = false → s.trace.any isFinRec = false) →
    opsOk t.finished ops = true →
    ∃ t2 s2, runOps env ops (some t) s = (some t2, s2)
      ∧ execAfterFin s2.trace = false := by
  induction ops with
  | nil => exact fun t s _ hea _ _ => ⟨t, s, rfl, hea⟩
  | cons op rest ih =>
    intro t s h hea hfin hops
    cases op with
    | executing fmt =>
      simp only [opsOk, Bool.and_eq_true, Bool.not_eq_eq_eq_not, Bool.not_true] at hops
      obtain ⟨hf, hrest⟩ := hops
      obtain ⟨hea2, hfin2⟩ := ea_executingExpand env t fmt s hea (hfin hf)
      obtain ⟨t2, s2, heq, hea3⟩ :=
        ih t (executingExpand env (some t) fmt s) h hea2 (fun _ => hfin2) hrest
      exact ⟨t2, s2, by simpa only [runOps] using heq, hea3⟩
    | finish fmt =>
      have hrest : opsOk true rest = true := hops
      cases hft : t.finished
      · -- the finish takes effect: flag set, Finished record appended
        have heq1 : finishExpand env (some t) fmt s
            = (some ({ t with finished := true }),
               ({ t with finished := true } : LoggingTimer).log_impl env
                 .finished fmt (fmtArg fmt s)) := by
          simp [finishExpand, LoggingTimer.finish, hft]
        have hea2 : execAfterFin (({ t with finished := true } : LoggingTimer).log_impl
            env .finished fmt (fmtArg fmt s)).trace = false :=
          ea_log_impl_finished _ env fmt (fmtArg fmt s) (by rw [ea_fmtArg]; exact hea)
        obtain ⟨t2, s2, heq, hea3⟩ :=
          ih { t with finished := true }
            (({ t with finished := true } : LoggingTimer).log_impl env .finished fmt
              (fmtArg fmt s))
            h hea2 (fun hff => by simp at hff) hrest
        refine ⟨t2, s2, ?_, hea3⟩
        simp only [runOps, heq1]
        exact heq
      · -- already finished: the finish call is a no-op
        have heq1 : finishExpand env (some t) fmt s = (some t, fmtArg fmt s) := by
          simp [finishExpand, LoggingTimer.finish, hft]
        obtain ⟨t2, s2, heq, hea3⟩ :=
          ih t (fmtArg fmt s) h (by rw [ea_fmtArg]; exact hea)
            (fun hff => by rw [hff] at hft; cases hft)
            (by rw [hft]; exact hrest)
        refine ⟨t2, s2, ?_, hea3⟩
        simp only [runOps, heq1]
        exact heq

/-- C3 counterexample: the claim says no Executing record is ever emitted
after finish has taken effect, for every operation sequence; but `executing`
does not consult the `finished` flag, so a progress call made after an
explicit finish emits an Executing record after the Finished record. -/
theorem c3_executing_after_finish_counterexample :
    execAfterFin (runScope envAllOn "f.rs" "m" 7 "T" none Level.debug
      [TimerOp.finish none, TimerOp.executing none] 0).trace = true := by
  decide

/-- C3 (amended): Executing records are emitted exactly at progress calls,
and the code does not guard `executing` with the `finished` flag; for every
operation sequence in which no progress call occurs after a finish call,
every Executing record appears strictly before the single Finished record
(no Executing record after finish). -/
theorem c3_ordering_amended (env : Env) (file modulePath name : String)
    (line c : Nat) (fmt : Option String) (level : Level) (ops : List TimerOp)
    (h : env.enabled level = true) (hops : opsOk false ops = true) :
    execAfterFin (runScope env file modulePath line name fmt level ops c).trace
      = false := by
  have h0 : logEnabled env level = true := h
  have hea0 : execAfterFin (Sys.tick (fmtArg fmt (⟨c, []⟩ : Sys))).trace = false := by
    cases fmt <;> rfl
  have hfin0 : (Sys.tick (fmtArg fmt (⟨c, []⟩ : Sys))).trace.any isFinRec = false := by
    cases fmt <;> rfl
  obtain ⟨t2, s2, heq, hea2⟩ := runOps_ea env ops
    ⟨level, file, modulePath, line, false, (fmtArg fmt (⟨c, []⟩ : Sys)).clock,
      name, fmt⟩
    (Sys.tick (fmtArg fmt (⟨c, []⟩ : Sys))) h0 hea0 (fun _ => hfin0) hops
  rw [runScope_eq env file modulePath line name fmt level ops c h0, heq]
  show execAfterFin (t2.finish env none s2).2.trace = false
  cases hf2 : t2.finished
  · simp only [LoggingTimer.finish, hf2, Bool.not_false, if_true]
    exact ea_log_impl_finished _ env none s2 hea2
  · simpa [LoggingTimer.finish, hf2] using hea2

/-- Witness for the amended C3 at a concrete input: a progress call followed
by a finish call; no Executing record after the Finished record. -/
theorem c3_ordering_amended_witness :
    envAllOn.enabled Level.debug = true
    ∧ opsOk false [TimerOp.executing none, TimerOp.finish none] = true
    ∧ execAfterFin (runScope envAllOn "f.rs" "m" 7 "T" none Level.debug
        [TimerOp.executing none, TimerOp.finish none] 0).trace = false :=
  ⟨rfl, rfl, c3_ordering_amended envAllOn "f.rs" "m" "T" 7 0 none Level.debug
    [TimerOp.executing none, TimerOp.finish none] rfl rfl⟩

/-- C8: a function wrapped by the attribute facility with severity "never"
is passed through unchanged: `time` and `stime` return the input token
stream as-is, so calling the emitted function runs the original body,
returns the same value as the unwrapped function, emits zero records and has
no timing side effect. -/
theorem c8_never_passthrough (metadata : List TokenTree) (pat : String)
    (hp : get_log_level_and_name_pattern metadata = .ok ("never", pat))
    (fnName : String) {α β : Type} (f : α → β) (env : Env)
    (file modulePath : String) (line : Nat) (a : α) (c : Nat) :
    time metadata fnName f = .ok (.passthrough f)
    ∧ stime metadata fnName f = .ok (.passthrough f)
    ∧ TimeOutput.call (.passthrough f) env file modulePath line a c
        = .ok (f a, ⟨c, []⟩) := by
  refine ⟨?_, ?_, rfl⟩
  · simp [time, hp]
  · simp [stime, hp]

/-- Witness for C8 at a concrete input: the attribute argument list
`("never")` parses to level "never"; the wrapped function is the unchanged
input and calling it yields the original result with an empty trace. -/
theorem c8_never_passthrough_witness :
    get_log_level_and_name_pattern [TokenTree.literal "never"]
      = .ok ("never", DEFAULT_NAME_PATTERN)
    ∧ time [TokenTree.literal "never"] "foo" (fun n : Nat => n + 1)
      = .ok (.passthrough (fun n : Nat => n + 1))
    ∧ stime [TokenTree.literal "never"] "foo" (fun n : Nat => n + 1)
      = .ok (.passthrough (fun n : Nat => n + 1))
    ∧ TimeOutput.call (.passthrough (fun n : Nat => n + 1)) envAllOn "f.rs" "m" 7 5 0
      = .ok (6, ⟨0, []⟩) := by
  have hp : get_log_level_and_name_pattern [TokenTree.literal "never"]
      = .ok ("never", DEFAULT_NAME_PATTERN) := rfl
  have w := c8_never_passthrough [TokenTree.literal "never"] DEFAULT_NAME_PATTERN hp
    "foo" (fun n : Nat => n + 1) envAllOn "f.rs" "m" 7 5 0
  exact ⟨hp, w.1, w.2.1, w.2.2⟩

/-- C9: malformed attribute-argument lists fail fast at code-generation time
(modelled as `Except.error`, never a runtime failure): more than two literal
arguments fails with the at-most-two message; a first argument containing the
substitution marker when two arguments are given fails with the
invalid-first-argument message; and a two-argument form whose first argument
is not a recognized severity name fails with the same invalid-first-argument
message — each message naming the offending argument and the expected
shape. -/
theorem c9_malformed_args_fail :
    (∀ metadata : List TokenTree, 2 < (metadata.filter isLiteralTok).length →
      get_log_level_and_name_pattern metadata
        = .error "Specify at most two string literal arguments, for log level and name pattern")
    ∧ (∀ s1 s2 : String, containsBracePair (literalText s1).data = true →
      get_log_level_and_name_pattern [TokenTree.literal s1, TokenTree.literal s2]
        = .error "Invalid first argument. Specify the log level as the first argument and the pattern as the second.")
    ∧ (∀ s1 s2 : String, isLevelName (toAsciiLower (literalText s1)) = false →
      get_log_level_and_name_pattern [TokenTree.literal s1, TokenTree.literal s2]
        = .error "Invalid first argument. Specify the log level as the first argument and the pattern as the second.") := by
  refine ⟨?_, ?_, ?_⟩
  · intro metadata hlen
    have hne : (metadata.filter isLiteralTok).isEmpty = false := by
      cases hm : metadata.filter isLiteralTok
      · rw [hm] at hlen
        simp at hlen
      · simp [List.isEmpty]
    simp [get_log_level_and_name_pattern, hne, hlen]
  · intro s1 s2 hb
    simp [get_log_level_and_name_pattern, List.filter, isLiteralTok,
      extract_literal, hb]
  · intro s1 s2 hl
    cases hb : containsBracePair (literalText s1).data
    · simp [get_log_level_and_name_pattern, List.filter, isLiteralTok,
        extract_literal, hb, hl]
    · simp [get_log_level_and_name_pattern, List.filter, isLiteralTok,
        extract_literal, hb]

/-- Witness for C9 at concrete inputs: three literals; a brace-pattern first
argument with a second argument; and an unrecognized severity with a second
argument. -/
theorem c9_malformed_args_fail_witness :
    get_log_level_and_name_pattern
        [TokenTree.literal "a", TokenTree.literal "b", TokenTree.literal "c"]
      = .error "Specify at most two string literal arguments, for log level and name pattern"
    ∧ get_log_level_and_name_pattern
        [TokenTree.literal "info\x7b\x7d", TokenTree.literal "p"]
      = .error "Invalid first argument. Specify the log level as the first argument and the pattern as the second."
    ∧ get_log_level_and_name_pattern
        [TokenTree.literal "loud", TokenTree.literal "p"]
      = .error "Invalid first argument. Specify the log level as the first argument and the pattern as the second." :=
  ⟨c9_malformed_args_fail.1
      [TokenTree.literal "a", TokenTree.literal "b", TokenTree.literal "c"]
      (by decide),
   c9_malformed_args_fail.2.1 "info\x7b\x7d" "p" (by decide),
   c9_malformed_args_fail.2.2 "loud" "p" (by decide)⟩
